import Mathlib

/-!
# AutoEnvForge — shallow embedding and verification

This file embeds the dependency-inference core of the AutoEnvForge
repository (`autoenvforge/scanner.py` and `autoenvforge/inferencer.py`)
as executable Lean definitions and proves/refutes the specified claims.

Python dictionaries are modelled as insertion-ordered association lists
(`Dict α`), Python exceptions as `Except String`, Python `None` inside a
dict value as `Option.none`, and the external collaborators (the
HuggingFace classification pipeline, the PyPI version query, the JSON
parser for `package.json`, and the tree-sitter file parser) as function
parameters, so every theorem quantifies over their behaviour.
-/

namespace AutoEnvForge

/-- A Python `dict` with string keys: an insertion-ordered association
list.  Assignment (`dinsert`) replaces the value in place when the key
is present and appends otherwise, exactly like CPython dict semantics. -/
abbrev Dict (α : Type) := List (String × α)

/-- Lookup, `d.get(k)` / `d[k]`: first (unique) binding of the key. -/
def dfind? {α : Type} : Dict α → String → Option α
  | [], _ => none
  | e :: es, k => if e.1 = k then some e.2 else dfind? es k

/-- Membership test, `k in d`. -/
def dcontains {α : Type} (m : Dict α) (k : String) : Bool :=
  (dfind? m k).isSome

/-- Assignment `d[k] = v`: replace in place if present, append otherwise. -/
def dinsert {α : Type} : Dict α → String → α → Dict α
  | [], k, v => [(k, v)]
  | e :: es, k, v => if e.1 = k then (k, v) :: es else e :: dinsert es k v

/-- The key sequence of a dict, in insertion order. -/
def dkeys {α : Type} (m : Dict α) : List String := m.map Prod.fst

@[simp] theorem dfind?_nil {α : Type} (k : String) : dfind? ([] : Dict α) k = none := rfl

@[simp] theorem dfind?_cons {α : Type} (e : String × α) (es : Dict α) (k : String) :
    dfind? (e :: es) k = if e.1 = k then some e.2 else dfind? es k := rfl

@[simp] theorem dkeys_nil {α : Type} : dkeys ([] : Dict α) = [] := rfl

@[simp] theorem dkeys_cons {α : Type} (e : String × α) (es : Dict α) :
    dkeys (e :: es) = e.1 :: dkeys es := rfl

theorem dkeys_dinsert {α : Type} (m : Dict α) (k : String) (v : α) :
    dkeys (dinsert m k v) = if dcontains m k then dkeys m else dkeys m ++ [k] := by
  induction m with
  | nil => simp [dinsert, dcontains, dfind?, dkeys]
  | cons e es ih =>
    by_cases h : e.1 = k
    · simp [dinsert, dcontains, dfind?, dkeys, h]
    · simp only [dinsert, if_neg h, dkeys_cons, ih, dcontains, dfind?_cons, if_neg h]
      by_cases h2 : (dfind? es k).isSome <;> simp [dcontains, h2]

theorem dfind?_dinsert_self {α : Type} (m : Dict α) (k : String) (v : α) :
    dfind? (dinsert m k v) k = some v := by
  induction m with
  | nil => simp [dinsert, dfind?]
  | cons e es ih =>
    by_cases h : e.1 = k
    · simp [dinsert, h, dfind?]
    · simp [dinsert, h, dfind?, ih]

theorem dfind?_dinsert_ne {α : Type} (m : Dict α) (k k' : String) (v : α) (h : k ≠ k') :
    dfind? (dinsert m k v) k' = dfind? m k' := by
  induction m with
  | nil => simp [dinsert, dfind?, h]
  | cons e es ih =>
    by_cases he : e.1 = k
    · simp [dinsert, he, dfind?, h]
    · by_cases he' : e.1 = k' <;> simp [dinsert, he, dfind?, he', ih, Ne.symm h]

/-! ## Python string primitives

`str.split`, `str.strip`, `str.endswith`, `str.startswith` and digit
parsing are re-implemented structurally over the character list of a
`String`, mirroring CPython semantics for the inputs the source feeds
them (in particular `split` with a non-empty separator scans greedily
left-to-right without overlap). -/

/-- Whether the first list is a prefix of the second. -/
def isPrefixOfL : List Char → List Char → Bool
  | [], _ => true
  | _ :: _, [] => false
  | a :: as, b :: bs => if a = b then isPrefixOfL as bs else false

/-- Worker for `pySplit`; the fuel is an upper bound on the number of
steps (each step ends or consumes at least one character). -/
def splitGo (sep : List Char) : Nat → List Char → List Char → List (List Char)
  | 0, acc, rest => [acc.reverse ++ rest]
  | _ + 1, acc, [] => [acc.reverse]
  | fuel + 1, acc, c :: cs =>
    if isPrefixOfL sep (c :: cs) then
      acc.reverse :: splitGo sep fuel [] (List.drop sep.length (c :: cs))
    else
      splitGo sep fuel (c :: acc) cs

/-- Python `s.split(sep)` for the non-empty separators the source uses
(`"=="`, `":"`, `"."`). -/
def pySplit (s sep : String) : List String :=
  if sep.data = [] then [s]
  else (splitGo sep.data (s.data.length + 1) [] s.data).map (fun l => ⟨l⟩)

/-- The default whitespace set of Python `str.strip`. -/
def isSpaceChar (c : Char) : Bool :=
  c = ' ' || c = '\t' || c = '\n' || c = '\r' || c = '\x0b' || c = '\x0c'

/-- Python `s.strip()`. -/
def pyStrip (s : String) : String :=
  ⟨((s.data.dropWhile isSpaceChar).reverse.dropWhile isSpaceChar).reverse⟩

/-- The numeric value of a decimal digit character. -/
def digitVal? (c : Char) : Option Nat :=
  if '0' ≤ c && c ≤ '9' then some (c.toNat - '0'.toNat) else none

/-- Parse a non-empty all-digit string as a natural number. -/
def pyToNat? (s : String) : Option Nat :=
  match s.data with
  | [] => none
  | l => l.foldl (fun acc c =>
      match acc, digitVal? c with
      | some n, some d => some (n * 10 + d)
      | _, _ => none) (some 0)

/-- Python `s.endswith(suf)`. -/
def endsWithS (s suf : String) : Bool := isPrefixOfL suf.data.reverse s.data.reverse

/-- Python `s.startswith(p)`. -/
def startsWithS (s p : String) : Bool := isPrefixOfL p.data s.data

/-! ## The `semver` library, as the source uses it

The source calls `semver.valid`, `semver.VersionInfo.parse` and
`semver.compare` from the third-party `semver` package.  That package is
not part of this repository, so its behaviour is modelled here on the
plain numeric `major.minor.patch` grammar (pre-release/build suffixes
are not exercised by any claim): `parse`/`compare` raise `ValueError`
when a string is not a valid three-component semantic version, and
`valid` is the corresponding boolean test. -/

/-- A semver numeric identifier: digits only, no leading zero. -/
def svNumeral? (s : String) : Option Nat :=
  match pyToNat? s with
  | some n => if s = "0" || !startsWithS s "0" then some n else none
  | none => none

/-- Parse `major.minor.patch`; `none` models a `ValueError` from
`semver.VersionInfo.parse`. -/
def semverParse (s : String) : Option (Nat × Nat × Nat) :=
  match pySplit s "." with
  | [a, b, c] =>
    match svNumeral? a, svNumeral? b, svNumeral? c with
    | some x, some y, some z => some (x, y, z)
    | _, _, _ => none
  | _ => none

/-- `semver.valid`: whether the string parses as a semantic version. -/
def semverValid (s : String) : Bool := (semverParse s).isSome

/-- Three-way comparison on parsed versions (lexicographic). -/
def svCompare (a b : Nat × Nat × Nat) : Int :=
  if a.1 < b.1 then -1 else if a.1 > b.1 then 1
  else if a.2.1 < b.2.1 then -1 else if a.2.1 > b.2.1 then 1
  else if a.2.2 < b.2.2 then -1 else if a.2.2 > b.2.2 then 1 else 0

/-- `semver.VersionInfo.parse`, with its `ValueError` made explicit. -/
def versionInfoParseE (s : String) : Except String (Nat × Nat × Nat) :=
  match semverParse s with
  | some t => Except.ok t
  | none => Except.error "ValueError: invalid SemVer string"

/-- `semver.compare`: parses both arguments (raising `ValueError` on an
invalid version string) and compares. -/
def semverCompareE (x y : String) : Except String Int := do
  let a ← versionInfoParseE x
  let b ← versionInfoParseE y
  pure (svCompare a b)

/-- Python `max(v1, v2, key=semver.VersionInfo.parse)`: keeps the first
argument unless the second parses strictly greater; parsing failures
surface as the `ValueError` of `VersionInfo.parse`. -/
def semverMaxE (v1 v2 : String) : Except String String := do
  let k1 ← versionInfoParseE v1
  let k2 ← versionInfoParseE v2
  pure (if svCompare k2 k1 > 0 then v2 else v1)

/-- `Inferencer._resolve_version_conflict` (inferencer.py lines
127-134): inside a `try`, if both versions are `semver.valid` return the
`max` by parsed order, else return `ver2` (the inferred version); an
escaping `ValueError` is caught and mapped to the sentinel `"latest"`. -/
def resolve_version_conflict (ver1 ver2 : String) : String :=
  match (if semverValid ver1 && semverValid ver2
         then semverMaxE ver1 ver2
         else Except.ok ver2) with
  | Except.ok v => v
  | Except.error _ => "latest"

/-! ## Scanner output shape (`scanner.py`, `Scanner.scan` result dict) -/

/-- One subdirectory's parse result: `{'imports': [...], 'functions': [...]}`. -/
structure ParseResult where
  imports : List String
  functions : List String
deriving Repr, DecidableEq

/-- The dict returned by `Scanner.scan` (scanner.py lines 52-59). -/
structure ScanData where
  repo_path : String
  primary_lang : String
  langs : Dict Nat
  subdirs : Dict (List String)
  parsed : Dict ParseResult
  configs : Dict (Dict (List String))
deriving Repr, DecidableEq

/-! ## Inferencer (`inferencer.py`)

Python `None` appearing as a dependency-map value is `Option.none`; a
normal version string is `some v`.  A raised exception is
`Except.error msg`. -/

/-- External collaborators used by `Inferencer.infer`:
`classify imp lang` is the list of `(label, score)` predictions the
HuggingFace pipeline returns for the prompt built from the import `imp`
and the language `lang`; `pypi dep` is the version extracted from a
successful PyPI query (`none` = any request/JSON failure, which the
source catches); `jsPkg lines` is the name→version list obtained from
`json.loads` of a `package.json` plus its `dependencies` and
`devDependencies` blocks, `none` modelling a `JSONDecodeError`. -/
structure InfCtx where
  classify : String → String → List (String × ℚ)
  pypi : String → Option String
  jsPkg : List String → Option (Dict String)

/-- Per-subdirectory accumulator
`{'deps': {}, 'hidden': [], 'insights': []}` (inferencer.py line 39). -/
structure SubInferred where
  deps : Dict (Option String)
  hidden : List String
  insights : List String
deriving Repr, DecidableEq

/-- The overall result dict (inferencer.py lines 30-36). -/
structure Inferred where
  deps : Dict (Option String)
  hidden : List String
  conflicts : List String
  insights : List String
  per_subdir : Dict SubInferred
deriving Repr, DecidableEq

/-- Decimal digits of a natural number (fuel-structural). -/
def natToChars : Nat → Nat → List Char
  | 0, _ => []
  | fuel + 1, n =>
    if n = 0 then [] else natToChars fuel (n / 10) ++ [Char.ofNat (48 + n % 10)]

/-- Decimal rendering of a natural number. -/
def natToStr (n : Nat) : String :=
  if n = 0 then "0" else ⟨natToChars (n + 1) n⟩

/-- Render a score with two decimals, as Python `f"{score:.2f}"` does
for the scores the claims exercise: `⌊100·q + 1/2⌋`, written out on the
numerator/denominator so it evaluates by kernel reduction. -/
def fmt2 (q : ℚ) : String :=
  let n : Int := Int.fdiv (200 * q.num + q.den) (2 * q.den)
  let a := n.natAbs
  (if n < 0 then "-" else "") ++ natToStr (a / 100) ++ "." ++
    (if a % 100 < 10 then "0" else "") ++ natToStr (a % 100)

/-- Python `str(x)` of a dict value that may be `None`. -/
def optStr : Option String → String
  | some s => s
  | none => "None"

/-- `Inferencer._merge_existing_configs`, one `requirements.txt` line
(inferencer.py lines 104-107): skip a line without `"=="`, two-variable
unpack of `line.split('==')` otherwise — three or more pieces raise an
unhandled `ValueError`. -/
def requirementLine (acc : Dict String) (line : String) : Except String (Dict String) :=
  match pySplit line "==" with
  | [_] => Except.ok acc
  | [dep, ver] => Except.ok (dinsert acc (pyStrip dep) (pyStrip ver))
  | _ => Except.error "ValueError: too many values to unpack (expected 2)"

/-- `Inferencer._merge_existing_configs` (inferencer.py lines 101-117). -/
def merge_existing_configs (C : InfCtx) (configs : Dict (List String))
    (lang : String) : Except String (Dict String) :=
  if lang == "python" && dcontains configs "requirements.txt" then
    match dfind? configs "requirements.txt" with
    | some lines => lines.foldlM requirementLine []
    | none => Except.ok []
  else if lang == "js" && dcontains configs "package.json" then
    match dfind? configs "package.json" with
    | some lines =>
      Except.ok (match C.jsPkg lines with
        | some ps => ps.foldl (fun m p => dinsert m p.1 p.2) []
        | none => [])
    | none => Except.ok []
  else Except.ok []

/-- `Inferencer._infer_hidden` (inferencer.py lines 119-125): the static
transitive-dependency rule table. -/
def infer_hidden (imp lang : String) : List String :=
  if lang == "python" then
    if imp == "numpy" then ["scipy", "matplotlib"]
    else if imp == "sklearn" then ["numpy", "scipy"]
    else []
  else if lang == "js" then
    if imp == "react" then ["react-dom"]
    else if imp == "express" then ["body-parser"]
    else []
  else []

/-- `Inferencer._get_latest_version` (inferencer.py lines 136-144): for
python, the PyPI version on success and the sentinel `"latest"` on any
exception; for every other language the `try` body runs no `return`, so
the function returns Python `None`. -/
def get_latest_version (C : InfCtx) (dep lang : String) : Option String :=
  if lang == "python" then
    some (match C.pypi dep with
      | some v => v
      | none => "latest")
  else none

/-- `Inferencer._is_deprecated` (inferencer.py lines 146-149): the table
holds only `{'python': {'tensorflow': '<2.0'}}`; when the entry matches,
`semver.compare(ver, '2.0')` runs and may raise `ValueError`. -/
def is_deprecated (dep : String) (ver : Option String) (lang : String) :
    Except String Bool :=
  if lang == "python" && dep == "tensorflow" then
    match ver with
    | some v => do
      let c ← semverCompareE v "2.0"
      pure (c < 0)
    | none => Except.error "TypeError: expected str, got NoneType"
  else Except.ok false

/-- The acceptance threshold `0.7` of inferencer.py line 52, as the
rational `7/10` in normal form (see `confidenceThreshold_eq`). -/
def confidenceThreshold : ℚ := ⟨7, 10, by decide, by decide⟩

theorem confidenceThreshold_eq : confidenceThreshold = 7/10 := by
  rw [confidenceThreshold, Rat.mk'_eq_divInt, Rat.divInt_eq_div]; norm_num

/-- One classifier prediction inside the loop of inferencer.py lines
51-56: accept when `score > 0.7`, split an optional `name:version`
label, assign into the dict and append one Insight. -/
def classifyPredStep (imp : String) (acc : SubInferred) (p : String × ℚ) : SubInferred :=
  if p.2 > confidenceThreshold then
    let dep := p.1
    let parts := pySplit dep ":"
    let version := match parts with
      | [_] => "latest"
      | _ => (parts.getLast?).getD ""
    let name := (parts.head?).getD ""
    { acc with
      deps := dinsert acc.deps name (some version),
      insights := acc.insights ++
        ["Inferred " ++ dep ++ " from " ++ imp ++ " with score " ++ fmt2 p.2] }
  else acc

/-- One iteration of the import loop (inferencer.py lines 47-60):
classifier predictions, then the rule-based hidden expansion. -/
def classifyImport (C : InfCtx) (lang : String) (acc : SubInferred) (imp : String) :
    SubInferred :=
  let acc := (C.classify imp lang).foldl (classifyPredStep imp) acc
  { acc with hidden := acc.hidden ++ infer_hidden imp lang }

/-- The whole import loop over a subdirectory's parsed imports. -/
def classifyImports (C : InfCtx) (lang : String) (imports : List String)
    (acc : SubInferred) : SubInferred :=
  imports.foldl (classifyImport C lang) acc

/-- The Insight text line 56 appends for one accepted prediction. -/
def predMsg (imp : String) (p : String × ℚ) : String :=
  "Inferred " ++ p.1 ++ " from " ++ imp ++ " with score " ++ fmt2 p.2

/-- The Insight entries one import contributes: one per prediction
strictly above the acceptance threshold, in prediction order. -/
def importInsights (C : InfCtx) (lang imp : String) : List String :=
  ((C.classify imp lang).filter (fun p => decide (confidenceThreshold < p.2))).map
    (predMsg imp)

/-- One declared dependency of the reconciliation loop (inferencer.py
lines 63-70): resolve on collision, record one global Conflict entry iff
the declared version changed, pass through otherwise. -/
def mergeDeclaredStep (acc : SubInferred × List String) (e : String × String) :
    Except String (SubInferred × List String) :=
  let sub := acc.1
  let conflicts := acc.2
  match dfind? sub.deps e.1 with
  | some iv =>
    match iv with
    | some ivs =>
      let resolved := resolve_version_conflict e.2 ivs
      Except.ok
        ({ sub with deps := dinsert sub.deps e.1 (some resolved) },
         if e.2 = resolved then conflicts
         else conflicts ++ ["Resolved " ++ e.1 ++ " from " ++ e.2 ++ " to " ++ resolved])
    | none => Except.error "TypeError: expected str, got NoneType"
  | none =>
    Except.ok ({ sub with deps := dinsert sub.deps e.1 (some e.2) }, conflicts)

/-- The sentinel pass (inferencer.py lines 72-75): every value equal to
`'latest'` is replaced by `_get_latest_version`. -/
def resolveSentinels (C : InfCtx) (lang : String) (deps : Dict (Option String)) :
    Dict (Option String) :=
  deps.map (fun e => if e.2 = some "latest" then (e.1, get_latest_version C e.1 lang) else e)

/-- One entry of the deprecation sweep (inferencer.py lines 78-85):
`_is_deprecated` may raise; on a deprecated entry append one Insight,
fetch the latest version and `semver.compare` it (which may raise),
upgrading and appending one global Conflict entry when strictly newer. -/
def deprecationStep (C : InfCtx) (lang : String)
    (acc : Dict (Option String) × List String × List String)
    (e : String × Option String) :
    Except String (Dict (Option String) × List String × List String) := do
  let deps := acc.1
  let insights := acc.2.1
  let conflicts := acc.2.2
  let depr ← is_deprecated e.1 e.2 lang
  if depr then
    let insights := insights ++
      ["Deprecated: " ++ e.1 ++ "@" ++ optStr e.2 ++ "; suggest upgrade"]
    match get_latest_version C e.1 lang, e.2 with
    | some l, some v => do
      let c ← semverCompareE l v
      if c > 0 then
        pure (dinsert deps e.1 (some l), insights,
              conflicts ++ ["Auto-upgraded " ++ e.1 ++ " to " ++ l])
      else pure (deps, insights, conflicts)
    | _, _ => Except.error "TypeError: expected str, got NoneType"
  else pure (deps, insights, conflicts)

/-- The language chosen for a subdirectory (inferencer.py line 41):
first element of the tag set when the subdirectory is present (an empty
set raises `IndexError`), else the primary language.  The Python `set`
is modelled as its insertion-ordered, duplicate-free list. -/
def langOf (data : ScanData) (subdir : String) : Except String String :=
  match dfind? data.subdirs subdir with
  | some (t :: _) => Except.ok t
  | some [] => Except.error "IndexError: list index out of range"
  | none => Except.ok data.primary_lang

/-- The body of the per-subdirectory loop of `Inferencer.infer`
(inferencer.py lines 38-85), returning the subdirectory record and the
Conflict entries it appends to the global list. -/
def inferSubdir (C : InfCtx) (data : ScanData) (subdir : String) (pr : ParseResult) :
    Except String (SubInferred × List String) := do
  let configs := (dfind? data.configs subdir).getD []
  let lang ← langOf data subdir
  let existing ← merge_existing_configs C configs lang
  let sub := classifyImports C lang pr.imports ⟨[], [], []⟩
  let (sub, conflicts) ← existing.foldlM mergeDeclaredStep (sub, [])
  let deps := resolveSentinels C lang sub.deps
  let (deps, insights, conflicts) ←
    deps.foldlM (deprecationStep C lang) (deps, sub.insights, conflicts)
  pure ({ sub with deps := deps, insights := insights }, conflicts)

/-- Accumulation of one subdirectory into the global result
(inferencer.py lines 87-90). -/
def inferStep (C : InfCtx) (data : ScanData) (acc : Inferred) (e : String × ParseResult) :
    Except String Inferred := do
  let (sub, conflicts) ← inferSubdir C data e.1 e.2
  pure { deps := sub.deps.foldl (fun m p => dinsert m p.1 p.2) acc.deps,
         hidden := acc.hidden ++ sub.hidden,
         conflicts := acc.conflicts ++ conflicts,
         insights := acc.insights ++ sub.insights,
         per_subdir := dinsert acc.per_subdir e.1 sub }

/-- `Inferencer.infer` without the cache layer (inferencer.py lines
30-99): the per-subdirectory loop over `scanned_data['parsed']`. -/
def infer (C : InfCtx) (data : ScanData) : Except String Inferred :=
  data.parsed.foldlM (inferStep C data) ⟨[], [], [], [], []⟩

/-- `Inferencer.infer` with its cache check and write (inferencer.py
lines 22-28 and 93-95).  `pyHash` models `hash(str(scanned_data))`; the
cache record is `{'hash': h, 'inferred': r}`; the returned pair is
(result, cache file state after the call). -/
def inferWithCache (C : InfCtx) (pyHash : ScanData → Int) (useCache : Bool)
    (cache : Option (Int × Inferred)) (data : ScanData) :
    Except String (Inferred × Option (Int × Inferred)) :=
  if useCache then
    match cache with
    | some (h, cachedInf) =>
      if h = pyHash data then Except.ok (cachedInf, cache)
      else do
        let r ← infer C data
        pure (r, some (pyHash data, r))
    | none => do
      let r ← infer C data
      pure (r, some (pyHash data, r))
  else do
    let r ← infer C data
    pure (r, cache)

/-! ## Scanner (`scanner.py`)

The filesystem is modelled as the data `os.walk` and `open` would
yield: `walk` lists every visited directory by its path relative to the
repository root — `os.path.relpath(root, repo_path)` yields `"."` for
the root itself — together with its direct file names, and `read` maps
a path to the lines of the file there (`none` when absent).
`_parse_files` itself needs no oracle: its first statement raises
unconditionally (see `parse_files`). -/

/-- The modelled filesystem under the repository root. -/
structure FS where
  walk : List (String × List String)
  read : String → Option (List String)

/-- File-extension classification of `_detect_languages_and_subdirs`
(scanner.py lines 74-89), in source order. -/
def classifyExt (file : String) : Option String :=
  if endsWithS file ".py" then some "python"
  else if endsWithS file ".js" || endsWithS file ".ts" || endsWithS file ".jsx" then some "js"
  else if endsWithS file ".java" then some "java"
  else if endsWithS file ".go" then some "go"
  else if endsWithS file ".rb" then some "ruby"
  else none

/-- `langs[l] += 1`. -/
def bumpLang (m : Dict Nat) (l : String) : Dict Nat :=
  dinsert m l ((dfind? m l).getD 0 + 1)

/-- Python `set.add` on the insertion-ordered model of a set. -/
def saddTag (tags : List String) (t : String) : List String :=
  if tags.contains t then tags else tags ++ [t]

/-- `subdirs[rel_root].add(tag)`. -/
def addTag (subdirs : Dict (List String)) (rel : String) (t : String) :
    Dict (List String) :=
  dinsert subdirs rel (saddTag ((dfind? subdirs rel).getD []) t)

/-- Classification of one direct file during the walk (scanner.py
lines 74-89). -/
def detectFileStep (rel : String) (a : Dict Nat × Dict (List String)) (file : String) :
    Dict Nat × Dict (List String) :=
  match classifyExt file with
  | some l => (bumpLang a.1 l, addTag a.2 rel l)
  | none => a

/-- One directory of the walk (scanner.py lines 71-89): `setdefault`
the relative root, then classify each direct file. -/
def detectStep (acc : Dict Nat × Dict (List String)) (entry : String × List String) :
    Dict Nat × Dict (List String) :=
  let subdirs0 := if dcontains acc.2 entry.1 then acc.2 else acc.2 ++ [(entry.1, [])]
  entry.2.foldl (detectFileStep entry.1) (acc.1, subdirs0)

/-- `Scanner._detect_languages_and_subdirs` (scanner.py lines 68-92):
counters start at zero for the five known ecosystems and `subdirs`
starts as `{'/': set()}`. -/
def detect_languages_and_subdirs (walk : List (String × List String)) :
    Dict Nat × Dict (List String) :=
  walk.foldl detectStep
    ([("python", 0), ("js", 0), ("java", 0), ("go", 0), ("ruby", 0)], [("/", [])])

/-- Python `max(langs, key=langs.get, default='python')`: the first key
with the maximal count, in dict order. -/
def primaryLang (langs : Dict Nat) : String :=
  match langs with
  | [] => "python"
  | e :: rest => (rest.foldl (fun best p => if p.2 > best.2 then p else best) e).1

/-- `os.path.join` for the relative components the scanner produces. -/
def pathJoin (a b : String) : String := a ++ "/" ++ b

/-- The well-known manifest names of `_detect_configs`
(scanner.py lines 127-133). -/
def configFilesFor (lang : String) : List String :=
  if lang == "python" then ["requirements.txt", "setup.py", "Pipfile", "pyproject.toml"]
  else if lang == "js" then ["package.json", "yarn.lock", "package-lock.json"]
  else if lang == "java" then ["pom.xml", "build.gradle"]
  else if lang == "go" then ["go.mod", "go.sum"]
  else if lang == "ruby" then ["Gemfile", "Gemfile.lock"]
  else []

/-- `Scanner._detect_configs` (scanner.py lines 125-139): read each
well-known manifest present in the subdirectory as its line list. -/
def detect_configs (fs : FS) (path lang : String) : Dict (List String) :=
  (configFilesFor lang).foldl
    (fun cfgs file =>
      match fs.read (pathJoin path file) with
      | some lines => cfgs ++ [(file, lines)]
      | none => cfgs)
    []

/-- `Scanner._parse_files` (scanner.py lines 94-96): its first statement
is `if lang in plugins:`, but `plugins` here is the *module* imported at
scanner.py line 9 (the dict of the same name lives inside that module
and is never re-exported), and membership tests on a module raise
`TypeError: argument of type 'module' is not iterable`.  Every call
therefore raises before any parsing; the remainder of the function is
unreachable. -/
def parse_files (_path _lang : String) : Except String ParseResult :=
  Except.error "TypeError: argument of type 'module' is not iterable"

/-- One ecosystem of one subdirectory in the parse/config loop
(scanner.py lines 48-50): the `_parse_files` call of line 49 runs (and
raises) before the `_detect_configs` assignment of line 50. -/
def bpLangStep (fs : FS) (subPath key : String)
    (a : Dict ParseResult × Dict (Dict (List String))) (lang : String) :
    Except String (Dict ParseResult × Dict (Dict (List String))) := do
  let pr ← parse_files subPath lang
  pure (dinsert a.1 key pr, dinsert a.2 key (detect_configs fs subPath lang))

/-- One subdirectory of the parse/config loop (scanner.py lines 46-50). -/
def bpStep (fs : FS) (repoPath : String)
    (acc : Dict ParseResult × Dict (Dict (List String))) (e : String × List String) :
    Except String (Dict ParseResult × Dict (Dict (List String))) :=
  e.2.foldlM (bpLangStep fs (pathJoin repoPath e.1) e.1) acc

/-- The parse/config loop of `Scanner.scan` (scanner.py lines 44-50):
a subdirectory with an empty tag set is assigned no entry at all, and a
subdirectory with any tag reaches `_parse_files`, whose `TypeError`
propagates — the loop completes only when every tag set is empty. -/
def buildParsedConfigs (fs : FS) (repoPath : String) (subdirs : Dict (List String)) :
    Except String (Dict ParseResult × Dict (Dict (List String))) :=
  subdirs.foldlM (bpStep fs repoPath) ([], [])

/-- The fresh-scan path of `Scanner.scan` (scanner.py lines 30-59) for a
local repository input (`os.path.abspath` is modelled as the identity on
the already-absolute input; remote cloning is not exercised by any
claim).  `forced_lang or max(...)` is the caller override.  It succeeds
only when the parse/config loop does, i.e. when no walked directory has
a recognized file. -/
def scanFresh (fs : FS) (repoInput : String) (forcedLang : Option String) :
    Except String ScanData := do
  let repoPath := repoInput
  let det := detect_languages_and_subdirs fs.walk
  let pc ← buildParsedConfigs fs repoPath det.2
  pure
    { repo_path := repoPath,
      primary_lang := forcedLang.getD (primaryLang det.1),
      langs := det.1,
      subdirs := det.2,
      parsed := pc.1,
      configs := pc.2 }

/-- The cache record `{'repo': ..., 'data': ...}` of scanner.py line 64. -/
structure ScanCacheRec where
  repo : String
  data : ScanData
deriving Repr, DecidableEq

/-- `Scanner.scan` with its cache check and write (scanner.py lines
22-28 and 62-64): the cached result is returned whenever the stored
`repo` equals the repository input, regardless of the present
filesystem content.  On a cache miss with caching enabled the write of
line 64 runs `json.dump({'repo': ..., 'data': data})`, and
`data['subdirs']` holds Python `set` values, which are not JSON
serializable — the dump raises `TypeError`, so a scan-cache record can
never actually be written (the `@retry` wrapper replays the same
deterministic failure).  The returned pair on success is (scan data,
cache file state after the call). -/
def scan (fs : FS) (repoInput : String) (useCache : Bool)
    (cache : Option ScanCacheRec) (forcedLang : Option String) :
    Except String (ScanData × Option ScanCacheRec) :=
  if useCache then
    match cache with
    | some c =>
      if c.repo = repoInput then Except.ok (c.data, cache)
      else do
        let _ ← scanFresh fs repoInput forcedLang
        Except.error "TypeError: Object of type set is not JSON serializable"
    | none => do
      let _ ← scanFresh fs repoInput forcedLang
      Except.error "TypeError: Object of type set is not JSON serializable"
  else do
    let d ← scanFresh fs repoInput forcedLang
    pure (d, cache)

/-- A silent classifier, an unreachable PyPI, and a failing JSON parse:
the fully degraded collaborator set. -/
def degradedCtx : InfCtx := ⟨fun _ _ => [], fun _ => none, fun _ => none⟩

/-- The score `0.9`, in kernel-evaluable normal form. -/
def score09 : ℚ := ⟨9, 10, by decide, by decide⟩

theorem score09_eq : score09 = 9/10 := by
  rw [score09, Rat.mk'_eq_divInt, Rat.divInt_eq_div]; norm_num

/-- The scan data of a repository whose root holds a single python
subdirectory with `requirements.txt` declaring `tensorflow==1.9`. -/
def tfSnapshot : ScanData :=
  { repo_path := "repo", primary_lang := "python",
    langs := [("python", 1), ("js", 0), ("java", 0), ("go", 0), ("ruby", 0)],
    subdirs := [("/", []), (".", ["python"])],
    parsed := [(".", ⟨[], []⟩)],
    configs := [(".", [("requirements.txt", ["tensorflow==1.9"])])] }

/-- The scan data of a js repository with one parsed import `"app"`. -/
def jsSnapshot : ScanData :=
  { repo_path := "repo", primary_lang := "js",
    langs := [("python", 0), ("js", 1), ("java", 0), ("go", 0), ("ruby", 0)],
    subdirs := [("/", []), (".", ["js"])],
    parsed := [(".", ⟨["app"], []⟩)],
    configs := [(".", [])] }

/-- A classifier predicting `react` with confidence 0.9 for the js
symbol `"app"`; the version source is unreachable. -/
def reactCtx : InfCtx :=
  ⟨fun imp lang => if imp = "app" ∧ lang = "js" then [("react", score09)] else [],
   fun _ => none, fun _ => none⟩

/-- A repository filesystem holding no files at all. -/
def fsEmpty : FS := ⟨[(".", [])], fun _ => none⟩

/-- A repository filesystem whose root holds a single python file. -/
def fsPy : FS := ⟨[(".", ["main.py"])], fun _ => none⟩

/-- The snapshot of the empty repository — the only kind of snapshot
the fresh-scan path can complete (no recognized files anywhere). -/
def emptyScanData : ScanData :=
  { repo_path := "repo", primary_lang := "python",
    langs := [("python", 0), ("js", 0), ("java", 0), ("go", 0), ("ruby", 0)],
    subdirs := [("/", []), (".", [])],
    parsed := [],
    configs := [] }

/-- The scan data of a python repository with one parsed import
`"numpy"` and no declared configuration. -/
def pySnapshot : ScanData :=
  { repo_path := "repo", primary_lang := "python",
    langs := [("python", 1), ("js", 0), ("java", 0), ("go", 0), ("ruby", 0)],
    subdirs := [("/", []), (".", ["python"])],
    parsed := [(".", ⟨["numpy"], []⟩)],
    configs := [(".", [])] }

/-- A classifier answering every prompt with a prediction at confidence
exactly `0.7` — the acceptance-threshold boundary. -/
def thresholdCtx : InfCtx :=
  ⟨fun _ _ => [("numpy:1.26.0", confidenceThreshold)], fun _ => none, fun _ => none⟩

/-- A classifier answering every prompt with a `numpy:1.26.0`
prediction at confidence `0.9`. -/
def acceptCtx : InfCtx :=
  ⟨fun _ _ => [("numpy:1.26.0", score09)], fun _ => none, fun _ => none⟩

/-- The scan data of a python repository whose `requirements.txt`
contains the malformed line `a==b==c`. -/
def badReqSnapshot : ScanData :=
  { repo_path := "repo", primary_lang := "python",
    langs := [("python", 1), ("js", 0), ("java", 0), ("go", 0), ("ruby", 0)],
    subdirs := [("/", []), (".", ["python"])],
    parsed := [(".", ⟨[], []⟩)],
    configs := [(".", [("requirements.txt", ["a==b==c"])])] }

/-! ## Supporting lemmas -/

instance {e a : Type} [DecidableEq e] [DecidableEq a] : DecidableEq (Except e a) := by
  intro x y
  cases x <;> cases y
  case ok.ok u v =>
    exact if h : u = v then Decidable.isTrue (by rw [h]) else
      Decidable.isFalse (by intro hh; injection hh; contradiction)
  case error.error u v =>
    exact if h : u = v then Decidable.isTrue (by rw [h]) else
      Decidable.isFalse (by intro hh; injection hh; contradiction)
  case ok.error u v => exact Decidable.isFalse (by intro hh; injection hh)
  case error.ok u v => exact Decidable.isFalse (by intro hh; injection hh)

theorem dcontains_iff_mem {α : Type} (m : Dict α) (k : String) :
    dcontains m k = true ↔ k ∈ dkeys m := by
  induction m with
  | nil => simp [dcontains]
  | cons e es ih =>
    simp only [dcontains, dfind?_cons, dkeys_cons] at *
    by_cases h : e.1 = k
    · simp [h]
    · have hne : ¬k = e.1 := fun hh => h hh.symm
      simp [h, ih, List.mem_cons, hne]

theorem dcontains_dinsert {α : Type} (m : Dict α) (k k' : String) (v : α) :
    dcontains (dinsert m k v) k' = true ↔ (k = k' ∨ dcontains m k' = true) := by
  by_cases h : k = k'
  · subst h
    simp [dcontains, dfind?_dinsert_self]
  · simp [dcontains, dfind?_dinsert_ne m k k' v h, h]

theorem nodup_dkeys_dinsert {α : Type} (m : Dict α) (k : String) (v : α)
    (h : (dkeys m).Nodup) : (dkeys (dinsert m k v)).Nodup := by
  rw [dkeys_dinsert]
  by_cases hc : dcontains m k
  · simpa [hc] using h
  · have hk : k ∉ dkeys m := by
      intro hm
      exact absurd ((dcontains_iff_mem m k).mpr hm) (by simpa using hc)
    simp [hc, List.nodup_append, h, hk]

theorem foldPreds_hidden (imp : String) (preds : List (String × ℚ)) (acc : SubInferred) :
    (preds.foldl (classifyPredStep imp) acc).hidden = acc.hidden := by
  induction preds generalizing acc with
  | nil => rfl
  | cons p ps ih =>
    rw [List.foldl_cons, ih]
    by_cases h : p.2 > confidenceThreshold <;> simp [classifyPredStep, h]

theorem foldPreds_insights (imp : String) (preds : List (String × ℚ)) (acc : SubInferred) :
    (preds.foldl (classifyPredStep imp) acc).insights =
      acc.insights ++
        (preds.filter (fun p => decide (confidenceThreshold < p.2))).map (predMsg imp) := by
  induction preds generalizing acc with
  | nil => simp
  | cons p ps ih =>
    rw [List.foldl_cons, ih]
    by_cases h : confidenceThreshold < p.2
    · simp [classifyPredStep, gt_iff_lt, h, List.filter_cons, predMsg]
    · simp [classifyPredStep, gt_iff_lt, h, List.filter_cons]

theorem foldPreds_deps_mem (imp : String) (preds : List (String × ℚ))
    (acc : SubInferred) (dep : String) :
    dcontains (preds.foldl (classifyPredStep imp) acc).deps dep = true ↔
      ((∃ p ∈ preds, confidenceThreshold < p.2 ∧
          ((pySplit p.1 ":").head?).getD "" = dep) ∨
       dcontains acc.deps dep = true) := by
  induction preds generalizing acc with
  | nil => simp
  | cons p ps ih =>
    rw [List.foldl_cons, ih]
    by_cases h : confidenceThreshold < p.2
    · simp only [classifyPredStep, gt_iff_lt, if_pos h, dcontains_dinsert,
        List.mem_cons]
      constructor
      · rintro (⟨q, hq, hq2, hq3⟩ | hd | hacc)
        · exact Or.inl ⟨q, Or.inr hq, hq2, hq3⟩
        · exact Or.inl ⟨p, Or.inl rfl, h, hd⟩
        · exact Or.inr hacc
      · rintro (⟨q, hq | hq, hq2, hq3⟩ | hacc)
        · exact Or.inr (Or.inl (hq ▸ hq3))
        · exact Or.inl ⟨q, hq, hq2, hq3⟩
        · exact Or.inr (Or.inr hacc)
    · simp only [classifyPredStep, gt_iff_lt, if_neg h, List.mem_cons]
      constructor
      · rintro (⟨q, hq, hq2, hq3⟩ | hacc)
        · exact Or.inl ⟨q, Or.inr hq, hq2, hq3⟩
        · exact Or.inr hacc
      · rintro (⟨q, hq | hq, hq2, hq3⟩ | hacc)
        · exact absurd (hq ▸ hq2) h
        · exact Or.inl ⟨q, hq, hq2, hq3⟩
        · exact Or.inr hacc

theorem classifyImports_hidden (C : InfCtx) (lang : String) (imports : List String)
    (acc : SubInferred) :
    (classifyImports C lang imports acc).hidden =
      acc.hidden ++ imports.flatMap (fun imp => infer_hidden imp lang) := by
  induction imports generalizing acc with
  | nil => simp [classifyImports]
  | cons i is ih =>
    simp only [classifyImports, List.foldl_cons] at ih ⊢
    rw [ih]
    simp [classifyImport, foldPreds_hidden]

theorem classifyImports_insights (C : InfCtx) (lang : String) (imports : List String)
    (acc : SubInferred) :
    (classifyImports C lang imports acc).insights =
      acc.insights ++ imports.flatMap (importInsights C lang) := by
  induction imports generalizing acc with
  | nil => simp [classifyImports]
  | cons i is ih =>
    simp only [classifyImports, List.foldl_cons] at ih ⊢
    rw [ih]
    simp [classifyImport, foldPreds_insights, importInsights]

theorem classifyImports_deps_mem (C : InfCtx) (lang : String) (imports : List String)
    (acc : SubInferred) (dep : String) :
    dcontains (classifyImports C lang imports acc).deps dep = true ↔
      ((∃ imp ∈ imports, ∃ p ∈ C.classify imp lang, confidenceThreshold < p.2 ∧
          ((pySplit p.1 ":").head?).getD "" = dep) ∨
       dcontains acc.deps dep = true) := by
  induction imports generalizing acc with
  | nil => simp [classifyImports]
  | cons i is ih =>
    simp only [classifyImports, List.foldl_cons] at ih ⊢
    rw [ih]
    have hstep : dcontains (classifyImport C lang acc i).deps dep = true ↔
        ((∃ p ∈ C.classify i lang, confidenceThreshold < p.2 ∧
            ((pySplit p.1 ":").head?).getD "" = dep) ∨
         dcontains acc.deps dep = true) := by
      simp only [classifyImport]
      exact foldPreds_deps_mem i (C.classify i lang) acc dep
    rw [hstep]
    simp only [List.mem_cons]
    constructor
    · rintro (⟨imp, him, hrest⟩ | ⟨p, hp, h2, h3⟩ | hacc)
      · exact Or.inl ⟨imp, Or.inr him, hrest⟩
      · exact Or.inl ⟨i, Or.inl rfl, p, hp, h2, h3⟩
      · exact Or.inr hacc
    · rintro (⟨imp, him | him, hrest⟩ | hacc)
      · exact Or.inr (Or.inl (him ▸ hrest))
      · exact Or.inl ⟨imp, him, hrest⟩
      · exact Or.inr (Or.inr hacc)

theorem errorBind {α β : Type} (m : String) (f : α → Except String β) :
    (Except.error m >>= f) = Except.error m := rfl

theorem okBind {α β : Type} (a : α) (f : α → Except String β) :
    (Except.ok a >>= f) = f a := rfl

theorem dcontains_append_left {α : Type} (m m' : Dict α) (k : String)
    (h : dcontains m k = true) : dcontains (m ++ m') k = true := by
  induction m with
  | nil => simp [dcontains, dfind?] at h
  | cons e es ih =>
    by_cases he : e.1 = k
    · simp [dcontains, dfind?, he]
    · simp only [dcontains, dfind?_cons, he, if_false] at h
      simp only [List.cons_append, dcontains, dfind?_cons, he, if_false]
      exact ih h

theorem detectFiles_contains (rel k : String) (files : List String) :
    ∀ acc : Dict Nat × Dict (List String), dcontains acc.2 k = true →
      dcontains ((files.foldl (detectFileStep rel) acc).2) k = true := by
  induction files with
  | nil => intro acc h; exact h
  | cons f fsx ih =>
    intro acc h
    rw [List.foldl_cons]
    apply ih
    unfold detectFileStep
    cases classifyExt f with
    | some lg =>
      show dcontains (addTag acc.2 rel lg) k = true
      exact (dcontains_dinsert _ _ _ _).mpr (Or.inr h)
    | none => exact h

theorem detect_foldl_contains (k : String) (walk : List (String × List String)) :
    ∀ acc : Dict Nat × Dict (List String), dcontains acc.2 k = true →
      dcontains ((walk.foldl detectStep acc).2) k = true := by
  induction walk with
  | nil => intro acc h; exact h
  | cons w ws ih =>
    intro acc h
    rw [List.foldl_cons]
    apply ih
    unfold detectStep
    dsimp only
    apply detectFiles_contains
    by_cases hc : dcontains acc.2 w.1
    · simpa [hc] using h
    · rw [if_neg (by simp [hc])]
      exact dcontains_append_left acc.2 [(w.1, [])] k h

theorem detect_contains_root (walk : List (String × List String)) :
    dcontains (detect_languages_and_subdirs walk).2 "/" = true :=
  detect_foldl_contains "/" walk _ rfl

theorem bpLang_error (fs : FS) (subPath key : String) (t : String) (ts : List String)
    (acc : Dict ParseResult × Dict (Dict (List String))) :
    (t :: ts).foldlM (bpLangStep fs subPath key) acc =
      Except.error "TypeError: argument of type 'module' is not iterable" := by
  rw [List.foldlM_cons]
  rw [show bpLangStep fs subPath key acc t =
    Except.error "TypeError: argument of type 'module' is not iterable" from rfl]
  rw [errorBind]

theorem bpStep_ok (fs : FS) (repoPath : String)
    (acc : Dict ParseResult × Dict (Dict (List String))) (e : String × List String)
    (out : Dict ParseResult × Dict (Dict (List String)))
    (h : bpStep fs repoPath acc e = Except.ok out) : e.2 = [] ∧ out = acc := by
  cases he : e.2 with
  | nil =>
    unfold bpStep at h
    rw [he, List.foldlM_nil] at h
    injection h with h
    exact ⟨rfl, h.symm⟩
  | cons t ts =>
    unfold bpStep at h
    rw [he, bpLang_error] at h
    exact Except.noConfusion h

theorem bpFold_ok (fs : FS) (repoPath : String) (l : Dict (List String)) :
    ∀ acc out, l.foldlM (bpStep fs repoPath) acc = Except.ok out →
      out = acc ∧ ∀ e ∈ l, e.2 = [] := by
  induction l with
  | nil =>
    intro acc out h
    rw [List.foldlM_nil] at h
    injection h with h
    exact ⟨h.symm, by simp⟩
  | cons e es ih =>
    intro acc out h
    rw [List.foldlM_cons] at h
    cases hs : bpStep fs repoPath acc e with
    | error m => rw [hs, errorBind] at h; exact Except.noConfusion h
    | ok acc2 =>
      rw [hs, okBind] at h
      obtain ⟨he2, hacc⟩ := bpStep_ok fs repoPath acc e acc2 hs
      obtain ⟨hout, hes⟩ := ih acc2 out h
      refine ⟨by rw [hout, hacc], ?_⟩
      intro e2 he
      rcases List.mem_cons.mp he with rfl | hm
      · exact he2
      · exact hes e2 hm

theorem scanFresh_ok (fs : FS) (repoInput : String) (forced : Option String)
    (data : ScanData) (h : scanFresh fs repoInput forced = Except.ok data) :
    data.subdirs = (detect_languages_and_subdirs fs.walk).2 ∧
    (data.parsed = [] ∧ ∀ e ∈ (detect_languages_and_subdirs fs.walk).2, e.2 = []) := by
  unfold scanFresh at h
  dsimp only at h
  cases hb : buildParsedConfigs fs repoInput (detect_languages_and_subdirs fs.walk).2 with
  | error m => rw [hb, errorBind] at h; exact Except.noConfusion h
  | ok pc =>
    rw [hb, okBind] at h
    replace h :
        (pure
          { repo_path := repoInput,
            primary_lang := forced.getD (primaryLang (detect_languages_and_subdirs fs.walk).1),
            langs := (detect_languages_and_subdirs fs.walk).1,
            subdirs := (detect_languages_and_subdirs fs.walk).2,
            parsed := pc.1,
            configs := pc.2 } : Except String ScanData) = Except.ok data := h
    injection h with h
    obtain ⟨hpc, hall⟩ :=
      bpFold_ok fs repoInput (detect_languages_and_subdirs fs.walk).2 ([], []) pc hb
    refine ⟨by rw [← h], ?_, hall⟩
    rw [← h]
    show pc.1 = []
    rw [hpc]

theorem mergeDeclaredStep_ok (sub : SubInferred) (cs : List String) (e : String × String)
    (out : SubInferred × List String) (h : mergeDeclaredStep (sub, cs) e = Except.ok out) :
    out.1.hidden = sub.hidden ∧ out.1.insights = sub.insights ∧
    ∃ a, out.2 = cs ++ a ∧
      ∀ s ∈ a, ∃ dep old new, s = "Resolved " ++ dep ++ " from " ++ old ++ " to " ++ new := by
  unfold mergeDeclaredStep at h
  dsimp only at h
  cases hf : dfind? sub.deps e.1 with
  | none =>
    rw [hf] at h
    injection h with h
    refine ⟨by rw [← h], by rw [← h], [], by rw [← h]; simp, by simp⟩
  | some iv =>
    cases iv with
    | none =>
      rw [hf] at h
      exact Except.noConfusion h
    | some ivs =>
      rw [hf] at h
      injection h with h
      refine ⟨by rw [← h], by rw [← h], ?_⟩
      by_cases hv : e.2 = resolve_version_conflict e.2 ivs
      · exact ⟨[], by rw [← h]; dsimp only; rw [if_pos hv, List.append_nil], by simp⟩
      · refine ⟨["Resolved " ++ e.1 ++ " from " ++ e.2 ++ " to " ++
          resolve_version_conflict e.2 ivs],
          by rw [← h]; dsimp only; rw [if_neg hv], ?_⟩
        intro s hs
        rw [List.mem_singleton] at hs
        exact ⟨e.1, e.2, resolve_version_conflict e.2 ivs, hs⟩

theorem mergeFold_ok (l : Dict String) :
    ∀ sub cs out, List.foldlM mergeDeclaredStep (sub, cs) l = Except.ok out →
      out.1.hidden = sub.hidden ∧ out.1.insights = sub.insights ∧
      ∃ a, out.2 = cs ++ a ∧
        ∀ s ∈ a, ∃ dep old new,
          s = "Resolved " ++ dep ++ " from " ++ old ++ " to " ++ new := by
  induction l with
  | nil =>
    intro sub cs out h
    simp only [List.foldlM_nil, pure, Except.pure, Except.ok.injEq] at h
    refine ⟨by rw [← h], by rw [← h], [], by rw [← h]; simp, by simp⟩
  | cons e es ih =>
    intro sub cs out h
    rw [List.foldlM_cons] at h
    cases hs : mergeDeclaredStep (sub, cs) e with
    | error m => rw [hs, errorBind] at h; exact Except.noConfusion h
    | ok acc2 =>
      rw [hs, okBind] at h
      obtain ⟨h1, h2, a, h3, hsh⟩ := ih acc2.1 acc2.2 out h
      obtain ⟨g1, g2, b, g3, gsh⟩ := mergeDeclaredStep_ok sub cs e acc2 hs
      refine ⟨by rw [h1, g1], by rw [h2, g2], b ++ a,
        by rw [h3, g3, List.append_assoc], ?_⟩
      intro s hsm
      rcases List.mem_append.mp hsm with hm | hm
      · exact gsh s hm
      · exact hsh s hm

theorem deprecationStep_ok (C : InfCtx) (lang : String)
    (acc : Dict (Option String) × List String × List String) (e : String × Option String)
    (out : Dict (Option String) × List String × List String)
    (h : deprecationStep C lang acc e = Except.ok out) :
    (∃ ia, out.2.1 = acc.2.1 ++ ia ∧
      ∀ s ∈ ia, ∃ dep ver, s = "Deprecated: " ++ dep ++ "@" ++ ver ++ "; suggest upgrade") ∧
    (∃ ca, out.2.2 = acc.2.2 ++ ca ∧
      ∀ s ∈ ca, ∃ dep lat, s = "Auto-upgraded " ++ dep ++ " to " ++ lat) := by
  unfold deprecationStep at h
  dsimp only at h
  cases hd : is_deprecated e.1 e.2 lang with
  | error m => rw [hd, errorBind] at h; exact Except.noConfusion h
  | ok depr =>
    rw [hd, okBind] at h
    cases depr with
    | false =>
      rw [if_neg (by simp)] at h
      injection h with h
      exact ⟨⟨[], by rw [← h]; simp, by simp⟩, ⟨[], by rw [← h]; simp, by simp⟩⟩
    | true =>
      rw [if_pos rfl] at h
      cases hg : get_latest_version C e.1 lang with
      | none =>
        rw [hg] at h
        cases e2 : e.2 <;> rw [e2] at h <;> exact Except.noConfusion h
      | some l =>
        rw [hg] at h
        cases e2 : e.2 with
        | none => rw [e2] at h; exact Except.noConfusion h
        | some v =>
          rw [e2] at h
          replace h :
              (semverCompareE l v >>= fun c =>
                if c > 0 then
                  pure (dinsert acc.1 e.1 (some l),
                    acc.2.1 ++
                      ["Deprecated: " ++ e.1 ++ "@" ++ optStr (some v) ++ "; suggest upgrade"],
                    acc.2.2 ++ ["Auto-upgraded " ++ e.1 ++ " to " ++ l])
                else
                  pure (acc.1,
                    acc.2.1 ++
                      ["Deprecated: " ++ e.1 ++ "@" ++ optStr (some v) ++ "; suggest upgrade"],
                    acc.2.2) :
                Except String (Dict (Option String) × List String × List String)) =
              Except.ok out := h
          cases hc : semverCompareE l v with
          | error m => rw [hc, errorBind] at h; exact Except.noConfusion h
          | ok c =>
            rw [hc, okBind] at h
            by_cases hpos : (0 : Int) < c
            · rw [if_pos hpos] at h
              injection h with h
              refine ⟨⟨_, by rw [← h], ?_⟩, ⟨_, by rw [← h], ?_⟩⟩
              · intro s hs
                rw [List.mem_singleton] at hs
                exact ⟨e.1, optStr (some v), hs⟩
              · intro s hs
                rw [List.mem_singleton] at hs
                exact ⟨e.1, l, hs⟩
            · rw [if_neg hpos] at h
              injection h with h
              refine ⟨⟨_, by rw [← h], ?_⟩, ⟨[], by rw [← h]; simp, by simp⟩⟩
              intro s hs
              rw [List.mem_singleton] at hs
              exact ⟨e.1, optStr (some v), hs⟩

theorem deprecFold_ok (C : InfCtx) (lang : String) (l : Dict (Option String)) :
    ∀ acc out, List.foldlM (deprecationStep C lang) acc l = Except.ok out →
      (∃ ia, out.2.1 = acc.2.1 ++ ia ∧
        ∀ s ∈ ia, ∃ dep ver,
          s = "Deprecated: " ++ dep ++ "@" ++ ver ++ "; suggest upgrade") ∧
      (∃ ca, out.2.2 = acc.2.2 ++ ca ∧
        ∀ s ∈ ca, ∃ dep lat, s = "Auto-upgraded " ++ dep ++ " to " ++ lat) := by
  induction l with
  | nil =>
    intro acc out h
    simp only [List.foldlM_nil, pure, Except.pure, Except.ok.injEq] at h
    exact ⟨⟨[], by rw [← h]; simp, by simp⟩, ⟨[], by rw [← h]; simp, by simp⟩⟩
  | cons e es ih =>
    intro acc out h
    rw [List.foldlM_cons] at h
    cases hs : deprecationStep C lang acc e with
    | error m => rw [hs, errorBind] at h; exact Except.noConfusion h
    | ok acc2 =>
      rw [hs, okBind] at h
      obtain ⟨⟨ia, h1, hish⟩, ⟨ca, h2, hcsh⟩⟩ := ih acc2 out h
      obtain ⟨⟨ib, g1, gish⟩, ⟨cb, g2, gcsh⟩⟩ := deprecationStep_ok C lang acc e acc2 hs
      refine ⟨⟨ib ++ ia, by rw [h1, g1, List.append_assoc], ?_⟩,
        ⟨cb ++ ca, by rw [h2, g2, List.append_assoc], ?_⟩⟩
      · intro s hsm
        rcases List.mem_append.mp hsm with hm | hm
        · exact gish s hm
        · exact hish s hm
      · intro s hsm
        rcases List.mem_append.mp hsm with hm | hm
        · exact gcsh s hm
        · exact hcsh s hm

theorem inferSubdir_ok (C : InfCtx) (data : ScanData) (subdir : String) (pr : ParseResult)
    (sub : SubInferred) (conflicts : List String)
    (h : inferSubdir C data subdir pr = Except.ok (sub, conflicts)) :
    ∃ lang existing sub1 cs1 dout,
      langOf data subdir = Except.ok lang ∧
      merge_existing_configs C ((dfind? data.configs subdir).getD []) lang =
        Except.ok existing ∧
      List.foldlM mergeDeclaredStep
        (classifyImports C lang pr.imports ⟨[], [], []⟩, []) existing =
        Except.ok (sub1, cs1) ∧
      List.foldlM (deprecationStep C lang)
        (resolveSentinels C lang sub1.deps, sub1.insights, cs1)
        (resolveSentinels C lang sub1.deps) = Except.ok dout ∧
      sub = { sub1 with deps := dout.1, insights := dout.2.1 } ∧
      conflicts = dout.2.2 := by
  unfold inferSubdir at h
  dsimp only at h
  cases hl : langOf data subdir with
  | error m => rw [hl, errorBind] at h; exact Except.noConfusion h
  | ok lang =>
    rw [hl, okBind] at h
    cases hm : merge_existing_configs C ((dfind? data.configs subdir).getD []) lang with
    | error m => rw [hm, errorBind] at h; exact Except.noConfusion h
    | ok existing =>
      rw [hm, okBind] at h
      cases hfold : List.foldlM mergeDeclaredStep
          (classifyImports C lang pr.imports ⟨[], [], []⟩, []) existing with
      | error m => rw [hfold, errorBind] at h; exact Except.noConfusion h
      | ok mout =>
        rw [hfold, okBind] at h
        cases hdep : List.foldlM (deprecationStep C lang)
            (resolveSentinels C lang mout.1.deps, mout.1.insights, mout.2)
            (resolveSentinels C lang mout.1.deps) with
        | error m =>
          rw [hdep, errorBind] at h
          exact Except.noConfusion h
        | ok dout =>
          rw [hdep, okBind] at h
          simp only [pure, Except.pure, Except.ok.injEq, Prod.mk.injEq] at h
          refine ⟨lang, existing, mout.1, mout.2, dout, ?_, ?_, ?_, ?_,
            h.1.symm, h.2.symm⟩
          · rfl
          · exact hm
          · exact hfold
          · exact hdep

theorem inferStep_ok (C : InfCtx) (data : ScanData) (acc : Inferred)
    (e : String × ParseResult) (out : Inferred)
    (h : inferStep C data acc e = Except.ok out) :
    ∃ sub cf, inferSubdir C data e.1 e.2 = Except.ok (sub, cf) ∧
      out = { deps := List.foldl (fun m q => dinsert m q.1 q.2) acc.deps sub.deps,
              hidden := acc.hidden ++ sub.hidden,
              conflicts := acc.conflicts ++ cf,
              insights := acc.insights ++ sub.insights,
              per_subdir := dinsert acc.per_subdir e.1 sub } := by
  unfold inferStep at h
  cases hi : inferSubdir C data e.1 e.2 with
  | error m => rw [hi, errorBind] at h; exact Except.noConfusion h
  | ok p =>
    rw [hi, okBind] at h
    replace h :
        (pure { deps := List.foldl (fun m q => dinsert m q.1 q.2) acc.deps p.1.deps,
                hidden := acc.hidden ++ p.1.hidden,
                conflicts := acc.conflicts ++ p.2,
                insights := acc.insights ++ p.1.insights,
                per_subdir := dinsert acc.per_subdir e.1 p.1 } :
          Except String Inferred) = Except.ok out := h
    injection h with h
    exact ⟨p.1, p.2, rfl, h.symm⟩

theorem inferFold_hidden_mono (C : InfCtx) (data : ScanData) (l : Dict ParseResult) :
    ∀ acc r, List.foldlM (inferStep C data) acc l = Except.ok r →
      ∃ t, r.hidden = acc.hidden ++ t := by
  induction l with
  | nil =>
    intro acc r h
    simp only [List.foldlM_nil, pure, Except.pure, Except.ok.injEq] at h
    exact ⟨[], by rw [← h]; simp⟩
  | cons e es ih =>
    intro acc r h
    rw [List.foldlM_cons] at h
    cases hs : inferStep C data acc e with
    | error m => rw [hs, errorBind] at h; exact Except.noConfusion h
    | ok acc2 =>
      rw [hs, okBind] at h
      obtain ⟨t, ht⟩ := ih acc2 r h
      obtain ⟨sub, cf, hi, hout⟩ := inferStep_ok C data acc e acc2 hs
      exact ⟨sub.hidden ++ t, by rw [ht, hout]; simp⟩

theorem inferSubdir_numpy_hidden (C : InfCtx) (data : ScanData) (subdir : String)
    (pr : ParseResult) (sub : SubInferred) (conflicts : List String)
    (hlang : langOf data subdir = Except.ok "python") (hnum : "numpy" ∈ pr.imports)
    (h : inferSubdir C data subdir pr = Except.ok (sub, conflicts)) :
    "scipy" ∈ sub.hidden ∧ "matplotlib" ∈ sub.hidden := by
  obtain ⟨lang, existing, sub1, cs1, dout, hl, hm, hfold, hdep, hsub, hcf⟩ :=
    inferSubdir_ok C data subdir pr sub conflicts h
  have hlg : lang = "python" := by
    rw [hl] at hlang
    injection hlang
  subst hlg
  obtain ⟨mh, -, -⟩ :=
    mergeFold_ok existing (classifyImports C "python" pr.imports ⟨[], [], []⟩) []
      (sub1, cs1) hfold
  have hh : sub.hidden = pr.imports.flatMap (fun imp => infer_hidden imp "python") := by
    rw [hsub]
    show sub1.hidden = _
    rw [show (sub1, cs1).1.hidden = sub1.hidden from rfl] at mh
    rw [mh, classifyImports_hidden]
    simp
  rw [hh]
  constructor
  · exact List.mem_flatMap.mpr ⟨"numpy", hnum, by simp [infer_hidden]⟩
  · exact List.mem_flatMap.mpr ⟨"numpy", hnum, by simp [infer_hidden]⟩

theorem inferFold_numpy (C : InfCtx) (data : ScanData) (l : Dict ParseResult) :
    ∀ acc r, List.foldlM (inferStep C data) acc l = Except.ok r →
    ∀ subdir pr, (subdir, pr) ∈ l →
      langOf data subdir = Except.ok "python" → "numpy" ∈ pr.imports →
      "scipy" ∈ r.hidden ∧ "matplotlib" ∈ r.hidden := by
  induction l with
  | nil =>
    intro acc r h subdir pr hmem
    simp at hmem
  | cons e es ih =>
    intro acc r h subdir pr hmem hlang hnum
    rw [List.foldlM_cons] at h
    cases hs : inferStep C data acc e with
    | error m => rw [hs, errorBind] at h; exact Except.noConfusion h
    | ok acc2 =>
      rw [hs, okBind] at h
      rcases List.mem_cons.mp hmem with heq | hmem'
      · subst heq
        obtain ⟨sub, cf, hi, hout⟩ := inferStep_ok C data acc (subdir, pr) acc2 hs
        obtain ⟨hs1, hs2⟩ := inferSubdir_numpy_hidden C data subdir pr sub cf hlang hnum hi
        obtain ⟨t, ht⟩ := inferFold_hidden_mono C data es acc2 r h
        rw [ht, hout]
        constructor
        · simp only [List.mem_append]
          exact Or.inl (Or.inr hs1)
        · simp only [List.mem_append]
          exact Or.inl (Or.inr hs2)
      · exact ih acc2 r h subdir pr hmem' hlang hnum

theorem svCompare_self (a : Nat × Nat × Nat) : svCompare a a = 0 := by
  simp [svCompare]

theorem svCompare_antisymm (a b : Nat × Nat × Nat) : svCompare a b = -svCompare b a := by
  simp only [svCompare]
  split_ifs <;> omega

theorem semverValid_iff_parse (s : String) :
    semverValid s = true ↔ ∃ t, semverParse s = some t := by
  cases h : semverParse s <;> simp [semverValid, h]

/-! ## Claims -/

/-- **C1.** Conflict resolution between a declared (`ver1`) and an
inferred (`ver2`) version requirement: when both are syntactically valid
semantic versions the higher one is kept (the result is one of the two
and compares greater-or-equal to both); when either is invalid the
inferred version is kept; and the reconciliation loop appends exactly
one Conflict entry — naming the dependency, the old version, and the new
version — precisely when the resolved version differs from the declared
one.  (The code's remaining `except ValueError: return 'latest'` branch
of `_resolve_version_conflict` is unreachable, since `semver.valid` is
boolean and `VersionInfo.parse` is applied only to valid versions, so
resolution always produces a version and the `"latest"` fallback clause
of the claim holds vacuously.) -/
theorem claim_C1 :
    (∀ ver1 ver2, semverValid ver1 = true → semverValid ver2 = true →
      (resolve_version_conflict ver1 ver2 = ver1 ∨
        resolve_version_conflict ver1 ver2 = ver2) ∧
      (∃ c, semverCompareE (resolve_version_conflict ver1 ver2) ver1 = Except.ok c ∧ 0 ≤ c) ∧
      (∃ c, semverCompareE (resolve_version_conflict ver1 ver2) ver2 = Except.ok c ∧ 0 ≤ c)) ∧
    (∀ ver1 ver2, (semverValid ver1 && semverValid ver2) = false →
      resolve_version_conflict ver1 ver2 = ver2) ∧
    (∀ sub conflicts dep declared ivs, dfind? sub.deps dep = some (some ivs) →
      mergeDeclaredStep (sub, conflicts) (dep, declared) =
        Except.ok
          ({ sub with
              deps := dinsert sub.deps dep (some (resolve_version_conflict declared ivs)) },
           conflicts ++
             (if declared = resolve_version_conflict declared ivs then []
              else ["Resolved " ++ dep ++ " from " ++ declared ++ " to " ++
                    resolve_version_conflict declared ivs]))) := by
  refine ⟨?_, ?_, ?_⟩
  · intro ver1 ver2 h1 h2
    obtain ⟨a, ha⟩ := (semverValid_iff_parse ver1).mp h1
    obtain ⟨b, hb⟩ := (semverValid_iff_parse ver2).mp h2
    have hr : resolve_version_conflict ver1 ver2 =
        (if svCompare b a > 0 then ver2 else ver1) := by
      simp [resolve_version_conflict, h1, h2, semverMaxE, versionInfoParseE, ha, hb,
        bind, Except.bind, pure, Except.pure]
    by_cases hc : svCompare b a > 0
    · rw [hr, if_pos hc]
      refine ⟨Or.inr rfl, ⟨svCompare b a, ?_, by omega⟩, ⟨svCompare b b, ?_, by
        rw [svCompare_self]⟩⟩
      · simp [semverCompareE, versionInfoParseE, ha, hb, bind, Except.bind, pure, Except.pure]
      · simp [semverCompareE, versionInfoParseE, hb, bind, Except.bind, pure, Except.pure]
    · rw [hr, if_neg hc]
      refine ⟨Or.inl rfl, ⟨svCompare a a, ?_, by rw [svCompare_self]⟩,
        ⟨svCompare a b, ?_, ?_⟩⟩
      · simp [semverCompareE, versionInfoParseE, ha, bind, Except.bind, pure, Except.pure]
      · simp [semverCompareE, versionInfoParseE, ha, hb, bind, Except.bind, pure, Except.pure]
      · have := svCompare_antisymm a b
        omega
  · intro ver1 ver2 h
    simp [resolve_version_conflict, h]
  · intro sub conflicts dep declared ivs h
    simp only [mergeDeclaredStep, h]
    by_cases he : declared = resolve_version_conflict declared ivs
    · rw [if_pos he, if_pos he]
      simp
    · rw [if_neg he, if_neg he]

/-- Witness for C1: the spec's own example — declared `numpy 1.20.0`
against inferred `1.24.0` resolves to one of the two (in fact the
higher), an invalid declared version yields the inferred one, and the
reconciliation step logs exactly one Conflict entry. -/
theorem claim_C1_witness :
    ((resolve_version_conflict "1.20.0" "1.24.0" = "1.20.0" ∨
      resolve_version_conflict "1.20.0" "1.24.0" = "1.24.0") ∧
     resolve_version_conflict "not-a-version" "2.0.0" = "2.0.0") ∧
    mergeDeclaredStep (⟨[("numpy", some "1.24.0")], [], []⟩, []) ("numpy", "1.20.0") =
      Except.ok (⟨[("numpy", some "1.24.0")], [], []⟩,
                 ["Resolved numpy from 1.20.0 to 1.24.0"]) := by
  constructor
  · exact ⟨(claim_C1.1 "1.20.0" "1.24.0" (by decide) (by decide)).1,
      claim_C1.2.1 "not-a-version" "2.0.0" (by decide)⟩
  · rw [claim_C1.2.2 ⟨[("numpy", some "1.24.0")], [], []⟩ [] "numpy" "1.20.0" "1.24.0"
      (by decide)]
    decide

/-- **C4.**  The claim says a dependency resolved to `"latest"` keeps
the string `"latest"` under any version-source failure in *every*
ecosystem.  The code satisfies this only for python: for any other
language the `try` body of `_get_latest_version` executes no `return`
statement, so the function yields Python `None` and the dependency's
version becomes `None`, contradicting the function's own comment
("Offline fallback to 'latest'") and the claim.  Evaluated on a js
subdirectory whose classifier proposes `react` (hence version sentinel
`"latest"`) with no reachable version source: the resolved entry is
`None`, not `"latest"` (no exception is raised — that part holds). -/
theorem claim_C4 :
    get_latest_version degradedCtx "react" "js" = none ∧
    infer reactCtx jsSnapshot =
      Except.ok
        { deps := [("react", none)],
          hidden := [],
          conflicts := [],
          insights := ["Inferred react from app with score 0.90"],
          per_subdir := [(".",
            { deps := [("react", none)],
              hidden := [],
              insights := ["Inferred react from app with score 0.90"] })] } := by
  decide

/-- **C7.**  The claim says the detector tags the repository root as
`"/"` and that each entry holds exactly the ecosystems of that
directory's direct files.  In the code `os.path.relpath(root, repo_path)`
is `"."` for the root, so the root's ecosystems are recorded under the
key `"."`, while the pre-seeded `"/"` entry keeps the empty set forever:
on a walk whose root holds one python file, `"/"` maps to `∅` (not
`{python}`) and the root's tags sit under `"."`. -/
theorem claim_C7 :
    detect_languages_and_subdirs [(".", ["main.py"])] =
      ([("python", 1), ("js", 0), ("java", 0), ("go", 0), ("ruby", 0)],
       [("/", []), (".", ["python"])]) ∧
    dfind? (detect_languages_and_subdirs [(".", ["main.py"])]).2 "/" = some [] ∧
    dfind? (detect_languages_and_subdirs [(".", ["main.py"])]).2 "." = some ["python"] := by
  decide

/-- **C8.**  The claim (and spec §8) says a resolved `tensorflow@1.9`
in a python subdirectory produces one Deprecation Insight, an automatic
upgrade, and one Conflict entry, without error.  In the code
`_is_deprecated` calls `semver.compare("1.9", "2.0")`, and neither
`"1.9"` nor the cutoff `"2.0"` is a valid three-component semantic
version, so `semver.compare` raises `ValueError`, which nothing
catches: inference aborts instead of sweeping. -/
theorem claim_C8 :
    is_deprecated "tensorflow" (some "1.9") "python" =
      Except.error "ValueError: invalid SemVer string" ∧
    infer degradedCtx tfSnapshot =
      Except.error "ValueError: invalid SemVer string" := by
  decide

/-- **C10.**  The declared-config merge is not total, exactly as the
claim describes: a `requirements.txt` line splitting into one piece on
`"=="` (no occurrence) contributes nothing; into exactly two pieces
(exactly one occurrence), the stripped name maps to the stripped
version; into three or more pieces (two or more occurrences, since
`split` yields occurrences+1 pieces), the two-variable unpacking raises
a `ValueError` which nothing catches — evaluated on `a==b==c` it
propagates out of the whole inference. -/
theorem claim_C10 :
    (∀ acc line x, pySplit line "==" = [x] → requirementLine acc line = Except.ok acc) ∧
    (∀ acc line dep ver, pySplit line "==" = [dep, ver] →
      requirementLine acc line = Except.ok (dinsert acc (pyStrip dep) (pyStrip ver))) ∧
    (∀ acc line parts, pySplit line "==" = parts → 3 ≤ parts.length →
      requirementLine acc line =
        Except.error "ValueError: too many values to unpack (expected 2)") ∧
    infer degradedCtx badReqSnapshot =
      Except.error "ValueError: too many values to unpack (expected 2)" := by
  refine ⟨?_, ?_, ?_, by decide⟩
  · intro acc line x h
    simp [requirementLine, h]
  · intro acc line dep ver h
    simp [requirementLine, h]
  · intro acc line parts h hlen
    match parts, hlen with
    | a :: b :: c :: rest, _ => simp [requirementLine, h]

/-- Witness for C10: a plain line adds nothing, a single-`==` line adds
the stripped pair, and `a==b==c` raises. -/
theorem claim_C10_witness :
    requirementLine [] "plainline" = Except.ok [] ∧
    requirementLine [] " numpy == 1.20.0 " = Except.ok [("numpy", "1.20.0")] ∧
    requirementLine [] "a==b==c" =
      Except.error "ValueError: too many values to unpack (expected 2)" := by
  refine ⟨claim_C10.1 [] "plainline" "plainline" (by decide), ?_, ?_⟩
  · rw [claim_C10.2.1 [] " numpy == 1.20.0 " " numpy " " 1.20.0 " (by decide)]
    decide
  · exact claim_C10.2.2.1 [] "a==b==c" ["a", "b", "c"] (by decide) (by decide)

/-- **C9**, as stated, is false: the *scanner's* cache hit test
(scanner.py line 25) compares only `cached['repo']` with the repository
input — the repository reference, not a content fingerprint.  Given a
cache record for the empty repository, re-scanning after `main.py`
appeared still returns the stale cached data, even though the changed
content is observable (the detector now counts one python file where
the cached snapshot has zero). -/
theorem claim_C9_counterexample :
    scan fsPy "repo" true (some ⟨"repo", emptyScanData⟩) none =
      Except.ok (emptyScanData, some ⟨"repo", emptyScanData⟩) ∧
    (detect_languages_and_subdirs fsPy.walk).1 ≠ emptyScanData.langs := by
  decide

/-- **C9 (amended).**  The scan cache is keyed by the repository
reference alone: whenever the cached record's `repo` equals the input,
the cached data is returned unchanged for *every* filesystem state —
so no re-analysis happens on a hit, but a file change does not
invalidate the entry either.  The scan-cache record can never be
written by this code, though: on every cache miss with caching enabled,
`scan` raises a `TypeError` (from `_parse_files` when a recognized file
exists, otherwise from `json.dump` on the set-valued `subdirs`), so the
claim's write-then-hit sequence of two successive scans is impossible.
The inferencer's cache is keyed by `hash(str(scanned_data))`: on a hash
match the cached inference is returned for every classifier, which is
therefore not invoked. -/
theorem claim_C9_amended :
    (∀ fs repoInput c forced, c.repo = repoInput →
      scan fs repoInput true (some c) forced = Except.ok (c.data, some c)) ∧
    (∀ fs repoInput forced out,
      scan fs repoInput true none forced ≠ Except.ok out) ∧
    (∀ fs repoInput c forced out, c.repo ≠ repoInput →
      scan fs repoInput true (some c) forced ≠ Except.ok out) ∧
    (∀ C pyHash ci data, inferWithCache C pyHash true (some (pyHash data, ci)) data =
      Except.ok (ci, some (pyHash data, ci))) := by
  refine ⟨?_, ?_, ?_, ?_⟩
  · intro fs repoInput c forced h
    simp [scan, h]
  · intro fs repoInput forced out h
    unfold scan at h
    rw [if_pos rfl] at h
    cases hf : scanFresh fs repoInput forced with
    | error m => rw [hf, errorBind] at h; exact Except.noConfusion h
    | ok d => rw [hf, okBind] at h; exact Except.noConfusion h
  · intro fs repoInput c forced out hne h
    unfold scan at h
    rw [if_pos rfl] at h
    dsimp only at h
    rw [if_neg hne] at h
    cases hf : scanFresh fs repoInput forced with
    | error m => rw [hf, errorBind] at h; exact Except.noConfusion h
    | ok d => rw [hf, okBind] at h; exact Except.noConfusion h
  · intro C pyHash ci data
    simp [inferWithCache]

/-- Witness for C9 (amended): the cached record for `"repo"` is
returned verbatim even though the filesystem now holds `main.py`, a
cache-miss scan of the same repository cannot produce (and hence cannot
cache) a result, and a matching inference-cache hash returns the cached
inference. -/
theorem claim_C9_amended_witness :
    scan fsPy "repo" true (some ⟨"repo", emptyScanData⟩) none =
      Except.ok (emptyScanData, some ⟨"repo", emptyScanData⟩) ∧
    scan fsPy "repo" true none none ≠
      Except.ok (emptyScanData, some ⟨"repo", emptyScanData⟩) ∧
    inferWithCache degradedCtx (fun _ => 0) true (some (0, ⟨[], [], [], [], []⟩))
        emptyScanData =
      Except.ok (⟨[], [], [], [], []⟩, some (0, ⟨[], [], [], [], []⟩)) := by
  exact ⟨claim_C9_amended.1 fsPy "repo" ⟨"repo", emptyScanData⟩ none rfl,
    claim_C9_amended.2.1 fsPy "repo" none (emptyScanData, some ⟨"repo", emptyScanData⟩),
    claim_C9_amended.2.2.2 degradedCtx (fun _ => 0) ⟨[], [], [], [], []⟩ emptyScanData⟩

/-- **C5**, as stated, is false at the boundary: the code accepts a
prediction only when `score > 0.7` (inferencer.py line 52), so a
prediction with confidence exactly `0.7` is discarded, not accepted —
evaluated on a classifier that answers with confidence exactly `0.7`,
no dependency is inserted. -/
theorem claim_C5_counterexample :
    Except.map (fun r => dcontains r.deps "numpy") (infer thresholdCtx pySnapshot) =
      Except.ok false := by
  decide

/-- **C5 (amended).**  A classifier prediction enters the inferred
dependency map if and only if its confidence is *strictly above* the
acceptance threshold `0.7` (the code compares `score > 0.7`, so a
prediction at exactly `0.7` is discarded along with everything below);
the inserted name is the part of the label before an optional `:`. -/
theorem claim_C5_amended :
    confidenceThreshold = 7/10 ∧
    ∀ C lang imports dep,
      dcontains (classifyImports C lang imports ⟨[], [], []⟩).deps dep = true ↔
      ∃ imp ∈ imports, ∃ p ∈ C.classify imp lang,
        confidenceThreshold < p.2 ∧ ((pySplit p.1 ":").head?).getD "" = dep := by
  refine ⟨confidenceThreshold_eq, ?_⟩
  intro C lang imports dep
  rw [classifyImports_deps_mem]
  simp [dcontains]

/-- Witness for C5 (amended): a `numpy:1.26.0` prediction at confidence
`0.9 > 0.7` is accepted into the inferred map under the name `numpy`. -/
theorem claim_C5_amended_witness :
    dcontains (classifyImports acceptCtx "python" ["numpy"] ⟨[], [], []⟩).deps
      "numpy" = true :=
  (claim_C5_amended.2 acceptCtx "python" ["numpy"] "numpy").mpr
    ⟨"numpy", by decide, ("numpy:1.26.0", score09), by decide, by decide, by decide⟩

/-- **C6.**  Transitive rule expansion is unconditional: for any
classifier behaviour whatsoever, a python subdirectory whose parse
result contains the import symbol `numpy` ends up with `scipy` and
`matplotlib` in its hidden-dependency list — both in the subdirectory's
own record and in the global hidden list of the inference result.  The
rule lookup (`_infer_hidden`) is applied to every import outside the
confidence test, so no confidence value is involved. -/
theorem claim_C6 :
    (∀ C data subdir pr sub conflicts,
      langOf data subdir = Except.ok "python" →
      "numpy" ∈ pr.imports →
      inferSubdir C data subdir pr = Except.ok (sub, conflicts) →
      "scipy" ∈ sub.hidden ∧ "matplotlib" ∈ sub.hidden) ∧
    (∀ C data r subdir pr,
      infer C data = Except.ok r →
      (subdir, pr) ∈ data.parsed →
      langOf data subdir = Except.ok "python" →
      "numpy" ∈ pr.imports →
      "scipy" ∈ r.hidden ∧ "matplotlib" ∈ r.hidden) := by
  constructor
  · intro C data subdir pr sub conflicts hlang hnum h
    exact inferSubdir_numpy_hidden C data subdir pr sub conflicts hlang hnum h
  · intro C data r subdir pr h hmem hlang hnum
    exact inferFold_numpy C data data.parsed ⟨[], [], [], [], []⟩ r h subdir pr
      hmem hlang hnum

/-- Witness for C6: on the concrete python snapshot importing `numpy`
with a silent classifier, both transitive dependencies appear in the
global hidden list. -/
theorem claim_C6_witness :
    "scipy" ∈ (Inferred.mk [] ["scipy", "matplotlib"] [] []
      [(".", ⟨[], ["scipy", "matplotlib"], []⟩)]).hidden ∧
    "matplotlib" ∈ (Inferred.mk [] ["scipy", "matplotlib"] [] []
      [(".", ⟨[], ["scipy", "matplotlib"], []⟩)]).hidden :=
  claim_C6.2 degradedCtx pySnapshot
    (Inferred.mk [] ["scipy", "matplotlib"] [] []
      [(".", ⟨[], ["scipy", "matplotlib"], []⟩)])
    "." ⟨["numpy"], []⟩ (by decide) (by decide) (by decide) (by decide)

/-- **C3.**  Determinism and log ordering: inference is a pure function
of its inputs (snapshot plus the classifier/version-source oracles), so
two runs on identical inputs give identical results; and each
subdirectory's logs follow the documented fixed order — the insight log
is exactly the classification insights in encounter order of the
imports (contents pinned by `importInsights`; declared-config merging
appends no insights, so the claimed "declared-merge insights first"
segment is the empty prefix) followed by a suffix consisting solely of
Deprecation entries; the transitive-expansion entries form the hidden
list in encounter order of the imports; and the conflict log is a
prefix consisting solely of reconciliation ("Resolved ... from ... to
...") entries followed by a suffix consisting solely of
deprecation-sweep ("Auto-upgraded ...") entries. -/
theorem claim_C3 :
    (∀ C data, infer C data = infer C data) ∧
    (∀ C data subdir pr sub conflicts,
      inferSubdir C data subdir pr = Except.ok (sub, conflicts) →
      ∃ lang depIns mergeConf depConf,
        langOf data subdir = Except.ok lang ∧
        sub.insights = pr.imports.flatMap (importInsights C lang) ++ depIns ∧
        (∀ s ∈ depIns, ∃ dep ver,
          s = "Deprecated: " ++ dep ++ "@" ++ ver ++ "; suggest upgrade") ∧
        sub.hidden = pr.imports.flatMap (fun imp => infer_hidden imp lang) ∧
        conflicts = mergeConf ++ depConf ∧
        (∀ s ∈ mergeConf, ∃ dep old new,
          s = "Resolved " ++ dep ++ " from " ++ old ++ " to " ++ new) ∧
        (∀ s ∈ depConf, ∃ dep lat, s = "Auto-upgraded " ++ dep ++ " to " ++ lat)) := by
  refine ⟨fun C data => rfl, ?_⟩
  intro C data subdir pr sub conflicts h
  obtain ⟨lang, existing, sub1, cs1, dout, hl, hm, hfold, hdep, hsub, hcf⟩ :=
    inferSubdir_ok C data subdir pr sub conflicts h
  obtain ⟨mh, mi, a, mc, mshape⟩ :=
    mergeFold_ok existing (classifyImports C lang pr.imports ⟨[], [], []⟩) []
      (sub1, cs1) hfold
  obtain ⟨⟨ia, di, dishape⟩, ⟨ca, dc, dcshape⟩⟩ :=
    deprecFold_ok C lang (resolveSentinels C lang sub1.deps)
      (resolveSentinels C lang sub1.deps, sub1.insights, cs1) dout hdep
  refine ⟨lang, ia, a, ca, hl, ?_, dishape, ?_, ?_, mshape, dcshape⟩
  · rw [hsub]
    show dout.2.1 = _
    rw [di]
    show sub1.insights ++ ia = _
    rw [show sub1.insights = (sub1, cs1).1.insights from rfl, mi,
      classifyImports_insights]
    simp
  · rw [hsub]
    show sub1.hidden = _
    rw [show sub1.hidden = (sub1, cs1).1.hidden from rfl, mh, classifyImports_hidden]
    simp
  · rw [hcf, dc]
    show cs1 ++ ca = _
    rw [show cs1 = (sub1, cs1).2 from rfl, mc]
    simp

/-- Witness for C3: on the js snapshot with the `react` classifier, the
subdirectory's single insight is exactly its classification insight,
the deprecation segments are empty, and the conflict log decomposes in
the claimed order (trivially, being empty). -/
theorem claim_C3_witness :
    infer reactCtx jsSnapshot = infer reactCtx jsSnapshot ∧
    (∃ lang depIns mergeConf depConf,
      langOf jsSnapshot "." = Except.ok lang ∧
      (SubInferred.mk [("react", none)] []
        ["Inferred react from app with score 0.90"]).insights =
        (["app"] : List String).flatMap (importInsights reactCtx lang) ++ depIns ∧
      (∀ s ∈ depIns, ∃ dep ver,
        s = "Deprecated: " ++ dep ++ "@" ++ ver ++ "; suggest upgrade") ∧
      (SubInferred.mk [("react", none)] []
        ["Inferred react from app with score 0.90"]).hidden =
        (["app"] : List String).flatMap (fun imp => infer_hidden imp lang) ∧
      ([] : List String) = mergeConf ++ depConf ∧
      (∀ s ∈ mergeConf, ∃ dep old new,
        s = "Resolved " ++ dep ++ " from " ++ old ++ " to " ++ new) ∧
      (∀ s ∈ depConf, ∃ dep lat, s = "Auto-upgraded " ++ dep ++ " to " ++ lat)) :=
  ⟨claim_C3.1 reactCtx jsSnapshot,
   claim_C3.2 reactCtx jsSnapshot "." ⟨["app"], []⟩
     (SubInferred.mk [("react", none)] []
       ["Inferred react from app with score 0.90"]) [] (by decide)⟩

/-- **C2**, as stated, is false: the scanner's walk gives every visited
directory a `subdirs` entry (pre-seeding `"/"` with an empty tag set),
but `Scanner.scan` builds `parsed` entries only while iterating a
subdirectory's ecosystem tags, and `Inferencer.infer` builds
`per_subdir` from `parsed`.  On the empty repository — the only input
whose scan actually completes — the snapshot's `subdirs` contains `"/"`
while the inference result's `per_subdir` does not contain `"/"`. -/
theorem claim_C2_counterexample :
    scan fsEmpty "repo" false none none = Except.ok (emptyScanData, none) ∧
    dcontains emptyScanData.subdirs "/" = true ∧
    Except.map (fun r => dcontains r.per_subdir "/")
      (infer degradedCtx emptyScanData) = Except.ok false := by
  decide

/-- **C2 (amended).**  The invariant fails for *every* snapshot the
scanner can produce: the fresh-scan path completes only when every
walked directory has an empty ecosystem tag set (one recognized file
anywhere makes `_parse_files` raise `TypeError` through the
`lang in plugins` membership test on the module), and then `parsed` —
and with it the inference result's `per_subdirectory` map — is empty,
while the snapshot's `subdirs` still holds `"/"` and every walked
directory, each with an empty tag set.  So no snapshot subdirectory
ever receives a `per_subdirectory` entry. -/
theorem claim_C2_amended (fs : FS) (repoInput : String) (forced : Option String)
    (data : ScanData) (h : scanFresh fs repoInput forced = Except.ok data) :
    dcontains data.subdirs "/" = true ∧
    (∀ e ∈ data.subdirs, e.2 = []) ∧
    data.parsed = [] ∧
    (∀ C r, infer C data = Except.ok r → r.per_subdir = []) := by
  obtain ⟨hsub, hparsed⟩ := scanFresh_ok fs repoInput forced data h
  refine ⟨?_, ?_, hparsed.1, ?_⟩
  · rw [hsub]
    exact detect_contains_root fs.walk
  · rw [hsub]
    exact hparsed.2
  · intro C r hr
    unfold infer at hr
    rw [hparsed.1, List.foldlM_nil] at hr
    replace hr : (Except.ok (⟨[], [], [], [], []⟩ : Inferred) :
        Except String Inferred) = Except.ok r := hr
    injection hr with hr
    rw [← hr]

/-- Witness for C2 (amended): the empty repository's snapshot — the
empty-parsed, `"/"`-containing shape — obtained through the theorem at
a concrete successful scan. -/
theorem claim_C2_amended_witness :
    dcontains emptyScanData.subdirs "/" = true ∧ emptyScanData.parsed = [] :=
  ⟨(claim_C2_amended fsEmpty "repo" none emptyScanData (by decide)).1,
   (claim_C2_amended fsEmpty "repo" none emptyScanData (by decide)).2.2.1⟩

end AutoEnvForge
